import Mathlib

/-!
Verification of the update-stock server (src/server.js).

The server is a small integration backend: it resolves a product variant
from a handle and a list of selected option name/value pairs, reads
aggregate available inventory, and writes a custom stock metafield.  The
remote GraphQL services are modelled as explicit inputs (a World record of
response oracles); each helper function of the source is translated into a
pure Lean function over those inputs.
-/

namespace UpdateStock

/-- A name/value option pair, as sent in request bodies and as attached to
variants (src/server.js lines 130, 141-144). -/
structure ProductOption where
  name : String
  value : String
deriving DecidableEq

/-- A product variant as returned by the storefront query: an id and its
selected options (src/server.js lines 139-147). -/
structure Variant where
  id : String
  selectedOptions : List ProductOption
deriving DecidableEq

/-- JavaScript toLowerCase, modelled as lowercasing every character. -/
def lowercase (s : String) : String := String.mk (s.data.map Char.toLower)

/-- One requested option matches one variant option when both name and value
are equal after lowercasing (src/server.js lines 169-173). -/
def optionMatches (requestedOption variantOption : ProductOption) : Bool :=
  lowercase variantOption.name == lowercase requestedOption.name &&
    lowercase variantOption.value == lowercase requestedOption.value

/-- A variant matches the request when every requested option has some
matching variant option (src/server.js lines 165-176). -/
def variantMatches (selectedOptions : List ProductOption) (v : Variant) : Bool :=
  selectedOptions.all fun requestedOption =>
    v.selectedOptions.any fun variantOption =>
      optionMatches requestedOption variantOption

/-- The single-quote character, used inside the resolver error message. -/
def squote : String := String.singleton (Char.ofNat 39)

/-- The error message thrown when no variant matches
(src/server.js line 179). -/
def noMatchMsg (handle : String) : String :=
  "No matching variant found for product handle " ++ squote ++ handle ++
    squote ++ " with the given options."

/-- getVariantGidByOptions (src/server.js lines 133-183).  The storefront
response is modelled by the product argument: none when data.data.product is
null, otherwise the list of variant edges; the source defaults a missing
chain to the empty list (line 163), then takes the first matching variant
(lines 165-176) and throws when none matches (lines 178-180). -/
def getVariantGidByOptions (handle : String) (selectedOptions : List ProductOption)
    (product : Option (List Variant)) : Except String String :=
  let variants := product.getD []
  match variants.find? (variantMatches selectedOptions) with
  | some v => Except.ok v.id
  | none => Except.error (noMatchMsg handle)

/-- One named quantity entry of an inventory level node
(src/server.js lines 84-87). -/
structure QuantityEntry where
  quantity : Int
  name : String
deriving DecidableEq

/-- One inventory level node, holding its named quantities
(src/server.js lines 83-89). -/
structure InventoryLevel where
  quantities : List QuantityEntry
deriving DecidableEq

/-- The error message for a variant the admin API does not know
(src/server.js line 102). -/
def notFoundMsg (variantGid : String) : String :=
  "Product variant GID " ++ variantGid ++ " not found."

/-- The summation loop of getVariantInventoryLevel: for each level, add the
quantity of its entry named available, if any (src/server.js lines 114-122). -/
def sumAvailable (levels : List InventoryLevel) : Int :=
  levels.foldl
    (fun acc level =>
      match level.quantities.find? (fun q => q.name == "available") with
      | some q => acc + q.quantity
      | none => acc)
    0

/-- getVariantInventoryLevel (src/server.js lines 76-125).  The admin
response is modelled by variantData: none when data.data.productVariant is
null (throws not-found, line 102); otherwise an optional list of inventory
level nodes, a missing chain defaulting to the empty list (lines 105-106);
an empty list returns 0 after a console warning (lines 108-111); otherwise
the available quantities are summed (lines 113-124). -/
def getVariantInventoryLevel (variantGid : String)
    (variantData : Option (Option (List InventoryLevel))) : Except String Int :=
  match variantData with
  | none => Except.error (notFoundMsg variantGid)
  | some inv =>
    let inventoryLevels := inv.getD []
    if inventoryLevels.isEmpty then Except.ok 0
    else Except.ok (sumAvailable inventoryLevels)

/-- Whether getVariantInventoryLevel emits its console warning: variant data
present but with zero inventory level records (src/server.js lines 108-110). -/
def inventoryWarns (variantData : Option (Option (List InventoryLevel))) : Bool :=
  match variantData with
  | none => false
  | some inv => (inv.getD []).isEmpty

/-- One user error of the metafieldsSet mutation response: a field path and
a message (src/server.js lines 202-205). -/
structure UserError where
  field : List String
  message : String
deriving DecidableEq

/-- JSON serialization of one string. -/
def quoteStr (s : String) : String := "\"" ++ s ++ "\""

/-- JSON serialization of a string array. -/
def stringifyFields (fields : List String) : String :=
  "[" ++ String.intercalate "," (fields.map quoteStr) ++ "]"

/-- JSON serialization of one user error object. -/
def stringifyUserError (e : UserError) : String :=
  "\x7b\"field\":" ++ stringifyFields e.field ++ ",\"message\":" ++
    quoteStr e.message ++ "\x7d"

/-- JSON.stringify of the user error list (src/server.js line 226). -/
def stringifyUserErrors (errs : List UserError) : String :=
  "[" ++ String.intercalate "," (errs.map stringifyUserError) ++ "]"

/-- The error message thrown when the mutation reports user errors
(src/server.js lines 224-227). -/
def metafieldErrorMsg (errs : List UserError) : String :=
  "Shopify Metafield Update Error: " ++ stringifyUserErrors errs

/-- The value returned by a successful setVariantCustomStock call
(src/server.js line 230). -/
structure StockUpdateResult where
  newStock : Int
deriving DecidableEq

/-- setVariantCustomStock (src/server.js lines 191-231).  The mutation
response is modelled by mutationResult: none when data.data.metafieldsSet is
null, otherwise its userErrors list.  A non-empty list throws (lines
223-228); otherwise the function returns the new stock (line 230).  The
optional chaining on line 223 means a null metafieldsSet also falls through
to the return. -/
def setVariantCustomStock (metafieldOwnerGid : String) (newQuantity : Int)
    (mutationResult : Option (List UserError)) : Except String StockUpdateResult :=
  match mutationResult with
  | some userErrors =>
    if 0 < userErrors.length then Except.error (metafieldErrorMsg userErrors)
    else Except.ok ⟨newQuantity⟩
  | none => Except.ok ⟨newQuantity⟩

/-- The remote platform, modelled as response oracles for each outbound
call, plus the store of the custom stock metafield that the mutation
updates.  products gives the storefront product query response per handle;
inventory gives the admin inventory query response per variant gid;
mutationUserErrors gives the userErrors list of a metafieldsSet call per
owner gid and string value; storeStock is the custom.store_stock metafield
value per owner gid. -/
structure World where
  products : String → Option (List Variant)
  inventory : String → Option (Option (List InventoryLevel))
  mutationUserErrors : String → String → Option (List UserError)
  storeStock : String → Option String

/-- Effect of a successful metafieldsSet on the remote store: the owner gid
now maps to the string form of the quantity (src/server.js lines 210-220
send value newQuantity.toString with namespace custom, key store_stock). -/
def applyMetafieldWrite (w : World) (ownerGid : String) (quantity : Int) : World :=
  { w with
    storeStock := fun g =>
      if g = ownerGid then some (toString quantity) else w.storeStock g }

/-- The selectedOptions field of a request body: absent (or null), present
but not an array, or an array of option pairs.  The validation on
src/server.js line 243 rejects the first two forms. -/
inductive BodyValue where
  | absent
  | nonArray
  | arr (opts : List ProductOption)
deriving DecidableEq

/-- The success message of the sync endpoint (src/server.js line 269). -/
def syncSuccessMsg : String :=
  "Variant custom stock successfully synchronized from Shopify inventory to custom metafield."

/-- The JSON body of a successful sync response (src/server.js lines
268-275). -/
structure SyncResponse where
  message : String
  productHandle : String
  inventorySourceHandle : String
  options : List ProductOption
  metafieldOwnerGid : String
  newStock : Int
deriving DecidableEq

/-- The observable outcome of the sync handler: success, or one of its
error responses (src/server.js lines 244-246, 281, 288-291). -/
inductive SyncOutcome where
  | ok (resp : SyncResponse)
  | badRequest (error : String)
  | notFound (error : String)
  | serverError (error : String) (details : String)
deriving DecidableEq

/-- The HTTP status of each outcome. -/
def statusOf : SyncOutcome → Nat
  | SyncOutcome.ok _ => 200
  | SyncOutcome.badRequest _ => 400
  | SyncOutcome.notFound _ => 404
  | SyncOutcome.serverError _ _ => 500

/-- The 400 validation error body (src/server.js line 245). -/
def validationMsg : String :=
  "Missing or invalid " ++ squote ++ "handle" ++ squote ++ " or " ++ squote ++
    "selectedOptions" ++ squote ++ " array in request body."

/-- Whether the character list pat is an initial segment of the second
list. -/
def beginsWith : List Char → List Char → Bool
  | [], _ => true
  | _ :: _, [] => false
  | p :: ps, c :: cs => p == c && beginsWith ps cs

/-- Whether the character list pat occurs contiguously in the second list;
an empty pattern always occurs, as for the JavaScript includes method. -/
def occursIn (pat : List Char) : List Char → Bool
  | [] => pat.isEmpty
  | c :: cs => beginsWith pat (c :: cs) || occursIn pat cs

/-- Substring test modelling the case-sensitive JavaScript
String.prototype.includes call used at src/server.js line 280. -/
def strContains (s pat : String) : Bool := occursIn pat.data s.data

/-- The catch block of the sync handler (src/server.js lines 276-292): a
message containing the text not found gives 404 with the message as body;
anything else gives 500 with a generic error and the message as details. -/
def catchOutcome (msg : String) : SyncOutcome :=
  if strContains msg "not found" then SyncOutcome.notFound msg
  else SyncOutcome.serverError "Server error during stock synchronization." msg

/-- The POST /sync-variant-stock handler (src/server.js lines 238-293).
Validation (line 243) rejects a missing or empty handle (JavaScript
truthiness: undefined, null and the empty string are falsy) and a missing or
non-array selectedOptions.  The pipeline then resolves the target variant on
handle, the source variant on handle ++ "-store", reads the source
inventory, and writes it to the target metafield; any thrown error is
mapped by the catch block, leaving the remote state unchanged. -/
def syncVariantStock (w : World) (handle : Option String)
    (selectedOptions : BodyValue) : SyncOutcome × World :=
  match handle, selectedOptions with
  | some h, BodyValue.arr opts =>
    if h == "" then (SyncOutcome.badRequest validationMsg, w)
    else
      match getVariantGidByOptions h opts (w.products h) with
      | Except.error e => (catchOutcome e, w)
      | Except.ok metafieldOwnerGid =>
        match getVariantGidByOptions (h ++ "-store") opts
            (w.products (h ++ "-store")) with
        | Except.error e => (catchOutcome e, w)
        | Except.ok inventorySourceGid =>
          match getVariantInventoryLevel inventorySourceGid
              (w.inventory inventorySourceGid) with
          | Except.error e => (catchOutcome e, w)
          | Except.ok availableStock =>
            match setVariantCustomStock metafieldOwnerGid availableStock
                (w.mutationUserErrors metafieldOwnerGid (toString availableStock)) with
            | Except.error e => (catchOutcome e, w)
            | Except.ok upd =>
              (SyncOutcome.ok
                { message := syncSuccessMsg
                  productHandle := h
                  inventorySourceHandle := h ++ "-store"
                  options := opts
                  metafieldOwnerGid := metafieldOwnerGid
                  newStock := upd.newStock },
               applyMetafieldWrite w metafieldOwnerGid availableStock)
  | _, _ => (SyncOutcome.badRequest validationMsg, w)

/-- HTTP methods of the registered routes. -/
inductive HttpMethod where
  | get
  | post
deriving DecidableEq

/-- The routes registered on the express app: POST /sync-variant-stock
(src/server.js line 238) and GET / (line 303).  The decrease endpoint was
removed (comment at lines 300-301) and no other route is registered. -/
def registeredRoutes : List (HttpMethod × String) :=
  [(HttpMethod.post, "/sync-variant-stock"), (HttpMethod.get, "/")]

/-- Spec-side matching predicate: every requested option has a corresponding
variant option equal under case-insensitive comparison of both name and
value. -/
def MatchesSpec (requestedOptions : List ProductOption) (v : Variant) : Prop :=
  ∀ r ∈ requestedOptions, ∃ o ∈ v.selectedOptions,
    lowercase o.name = lowercase r.name ∧ lowercase o.value = lowercase r.value

instance (requestedOptions : List ProductOption) (v : Variant) :
    Decidable (MatchesSpec requestedOptions v) := by
  unfold MatchesSpec; infer_instance

/-- Spec-side substring relation: sub occurs contiguously in s. -/
def ContainsSub (s sub : String) : Prop := ∃ pre suf, s = pre ++ sub ++ suf

/-- Spec-side per-location contribution: the quantity of the entry named
available, or 0 when there is none. -/
def availContribution (level : InventoryLevel) : Int :=
  match level.quantities.find? (fun q => q.name == "available") with
  | some q => q.quantity
  | none => 0

lemma variantMatches_iff (selectedOptions : List ProductOption) (v : Variant) :
    variantMatches selectedOptions v = true ↔ MatchesSpec selectedOptions v := by
  unfold variantMatches MatchesSpec optionMatches
  simp [List.all_eq_true, List.any_eq_true, Bool.and_eq_true, beq_iff_eq]

lemma variantMatches_eq_false (selectedOptions : List ProductOption) (v : Variant) :
    variantMatches selectedOptions v = false ↔ ¬ MatchesSpec selectedOptions v := by
  rw [← variantMatches_iff]
  cases variantMatches selectedOptions v <;> simp

lemma find?_first {α : Type} (p : α → Bool) (pre post : List α) (v : α)
    (hpre : ∀ u ∈ pre, p u = false) (hv : p v = true) :
    (pre ++ v :: post).find? p = some v := by
  induction pre with
  | nil => simp [List.find?_cons, hv]
  | cons a l ih =>
    have ha := hpre a (by simp)
    simp only [List.cons_append, List.find?_cons, ha, cond_false]
    exact ih fun u hu => hpre u (by simp [hu])

lemma foldl_avail (levels : List InventoryLevel) (acc : Int) :
    List.foldl
      (fun acc level =>
        match level.quantities.find? (fun q => q.name == "available") with
        | some q => acc + q.quantity
        | none => acc)
      acc levels = acc + (levels.map availContribution).sum := by
  induction levels generalizing acc with
  | nil => simp
  | cons l ls ih =>
    simp only [List.foldl_cons, List.map_cons, List.sum_cons]
    rw [ih]
    unfold availContribution
    cases h : l.quantities.find? (fun q => q.name == "available") <;>
      simp [h] <;> ring

lemma sumAvailable_eq (levels : List InventoryLevel) :
    sumAvailable levels = (levels.map availContribution).sum := by
  unfold sumAvailable
  rw [foldl_avail]
  simp

lemma getVariantInventoryLevel_some (variantGid : String)
    (inv : Option (List InventoryLevel)) :
    getVariantInventoryLevel variantGid (some inv) =
      Except.ok (((inv.getD []).map availContribution).sum) := by
  unfold getVariantInventoryLevel
  simp only []
  split
  · next hemp =>
    have : inv.getD [] = [] := by
      cases hl : inv.getD [] with
      | nil => rfl
      | cons a l => rw [hl] at hemp; simp at hemp
    rw [this]
    simp
  · rw [sumAvailable_eq]

/-- Claim C3: variant resolution returns the id of the first variant, in the
order returned by the API, for which every requested option has a
corresponding variant option equal under case-insensitive comparison of both
name and value; if no variant matches, resolution fails with a not-found
error naming the handle. -/
theorem c3_variant_resolution (handle : String)
    (selectedOptions : List ProductOption)
    (variants pre post : List Variant) (v : Variant) :
    (variants = pre ++ v :: post →
        (∀ u ∈ pre, ¬ MatchesSpec selectedOptions u) →
        MatchesSpec selectedOptions v →
        getVariantGidByOptions handle selectedOptions (some variants) =
          Except.ok v.id)
    ∧ ((∀ u ∈ variants, ¬ MatchesSpec selectedOptions u) →
        getVariantGidByOptions handle selectedOptions (some variants) =
            Except.error (noMatchMsg handle)
          ∧ ContainsSub (noMatchMsg handle) handle) := by
  constructor
  · rintro rfl hpre hv
    unfold getVariantGidByOptions
    have hfind : (pre ++ v :: post).find? (variantMatches selectedOptions) = some v :=
      find?_first _ _ _ _
        (fun u hu => (variantMatches_eq_false _ _).mpr (hpre u hu))
        ((variantMatches_iff _ _).mpr hv)
    simp [hfind]
  · intro hnone
    have hfind : variants.find? (variantMatches selectedOptions) = none :=
      List.find?_eq_none.mpr fun u hu hb =>
        hnone u hu ((variantMatches_iff _ _).mp hb)
    refine ⟨by simp [getVariantGidByOptions, hfind], ?_⟩
    exact ⟨"No matching variant found for product handle " ++ squote,
      squote ++ " with the given options.",
      by simp [noMatchMsg, String.append_assoc]⟩

/-- Concrete variants used to exercise the resolution theorem. -/
def variantC3a : Variant := ⟨"gid-L", [⟨"Size", "L"⟩]⟩

def variantC3b : Variant := ⟨"gid-M", [⟨"Size", "M"⟩]⟩

theorem c3_witness :
    getVariantGidByOptions "shirt" [⟨"Size", "m"⟩]
        (some [variantC3a, variantC3b]) = Except.ok "gid-M"
    ∧ getVariantGidByOptions "shirt" [⟨"Size", "XXL"⟩]
        (some [variantC3a, variantC3b]) = Except.error (noMatchMsg "shirt") := by
  constructor
  · exact (c3_variant_resolution "shirt" [⟨"Size", "m"⟩]
      [variantC3a, variantC3b] [variantC3a] [] variantC3b).1 rfl
      (by decide) (by decide)
  · exact ((c3_variant_resolution "shirt" [⟨"Size", "XXL"⟩]
      [variantC3a, variantC3b] [] [] variantC3b).2 (by decide)).1

/-- Claim C5: the inventory reader sums, over all returned inventory-level
records, the quantity of the entry named available at each location,
contributing 0 for a location with no available entry; with zero
inventory-level records it returns 0 with a warning and no error. -/
theorem c5_inventory_sum (variantGid : String)
    (inv : Option (List InventoryLevel)) :
    getVariantInventoryLevel variantGid (some inv) =
        Except.ok (((inv.getD []).map availContribution).sum)
    ∧ ((inv.getD []).isEmpty = true →
        getVariantInventoryLevel variantGid (some inv) = Except.ok 0
          ∧ inventoryWarns (some inv) = true) := by
  refine ⟨getVariantInventoryLevel_some variantGid inv, fun hemp => ?_⟩
  refine ⟨by simp [getVariantInventoryLevel, hemp], by simp [inventoryWarns, hemp]⟩

theorem c5_witness :
    getVariantInventoryLevel "gid-w5" (some (some [])) = Except.ok 0
    ∧ inventoryWarns (some (some [])) = true :=
  (c5_inventory_sum "gid-w5" (some [])).2 rfl

/-- Concrete inventory level with a negative available quantity, as the
platform reports for oversold stock. -/
def levelC6 : InventoryLevel := ⟨[⟨-5, "available"⟩]⟩

theorem c6_counterexample :
    getVariantInventoryLevel "gid-c6" (some (some [levelC6])) = Except.ok (-5)
    ∧ ((-5 : Int) < 0) :=
  ⟨rfl, by decide⟩

/-- Claim C6 amended: the inventory reader returns an integer that is
non-negative whenever every quantity reported by the remote response is
non-negative; a response carrying a negative available quantity is summed
as-is and can make the result negative. -/
theorem c6_sum_nonneg (variantGid : String)
    (variantData : Option (Option (List InventoryLevel))) (r : Int)
    (hq : ∀ level ∈ (variantData.getD none).getD [],
        ∀ q ∈ level.quantities, 0 ≤ q.quantity)
    (hr : getVariantInventoryLevel variantGid variantData = Except.ok r) :
    0 ≤ r := by
  cases variantData with
  | none => simp [getVariantInventoryLevel] at hr
  | some inv =>
    have hlev : ∀ level ∈ inv.getD [], ∀ q ∈ level.quantities, 0 ≤ q.quantity := by
      simpa using hq
    unfold getVariantInventoryLevel at hr
    simp only [] at hr
    split at hr
    · obtain rfl : (0 : Int) = r := by simpa using hr
      exact le_refl 0
    · obtain rfl : sumAvailable (inv.getD []) = r := by simpa using hr
      rw [sumAvailable_eq]
      refine List.sum_nonneg ?_
      intro x hx
      obtain ⟨level, hl, rfl⟩ := List.mem_map.mp hx
      unfold availContribution
      cases hfind : level.quantities.find? (fun q => q.name == "available") with
      | none => exact le_refl 0
      | some q => exact hlev level hl q (List.mem_of_find?_eq_some hfind)

theorem c6_witness :
    getVariantInventoryLevel "gid-w6" (some (some [⟨[⟨3, "available"⟩]⟩])) =
        Except.ok 3
    ∧ (0 : Int) ≤ 3 :=
  ⟨rfl, c6_sum_nonneg "gid-w6" (some (some [⟨[⟨3, "available"⟩]⟩])) 3
    (by decide) rfl⟩

/-- Claim C7: the stock mutator fails with a metafield-update error carrying
the structured field/message list whenever the mutation response has a
non-empty user-error list, and otherwise returns the new stock quantity. -/
theorem c7_metafield_set (metafieldOwnerGid : String) (newQuantity : Int)
    (userErrors : List UserError) :
    (userErrors ≠ [] →
        setVariantCustomStock metafieldOwnerGid newQuantity (some userErrors) =
          Except.error (metafieldErrorMsg userErrors))
    ∧ setVariantCustomStock metafieldOwnerGid newQuantity (some []) =
        Except.ok ⟨newQuantity⟩
    ∧ setVariantCustomStock metafieldOwnerGid newQuantity none =
        Except.ok ⟨newQuantity⟩ := by
  refine ⟨fun hne => ?_, rfl, rfl⟩
  unfold setVariantCustomStock
  have hpos : 0 < userErrors.length := List.length_pos.mpr hne
  simp [hpos]

theorem c7_witness :
    setVariantCustomStock "gid-w7" 4 (some [⟨["value"], "bad value"⟩]) =
      Except.error (metafieldErrorMsg [⟨["value"], "bad value"⟩]) :=
  (c7_metafield_set "gid-w7" 4 [⟨["value"], "bad value"⟩]).1 (by simp)

lemma catchOutcome_ne_ok (e : String) (r : SyncResponse) :
    catchOutcome e ≠ SyncOutcome.ok r := by
  unfold catchOutcome
  split <;> simp

lemma catchOutcome_ne_badRequest (e m : String) :
    catchOutcome e ≠ SyncOutcome.badRequest m := by
  unfold catchOutcome
  split <;> simp

lemma setVariantCustomStock_ok {gid : String} {q : Int}
    {mres : Option (List UserError)} {upd : StockUpdateResult}
    (h : setVariantCustomStock gid q mres = Except.ok upd) : upd = ⟨q⟩ := by
  unfold setVariantCustomStock at h
  split at h
  · split at h
    · exact absurd h (by simp)
    · exact (Except.ok.inj h).symm
  · exact (Except.ok.inj h).symm

lemma resolution_fails_of_no_match {w : World} {h : String}
    {selectedOptions : List ProductOption}
    (hnm : ∀ v ∈ (w.products h).getD [], ¬ MatchesSpec selectedOptions v) :
    getVariantGidByOptions h selectedOptions (w.products h) =
      Except.error (noMatchMsg h) := by
  unfold getVariantGidByOptions
  have hfind : ((w.products h).getD []).find? (variantMatches selectedOptions) = none :=
    List.find?_eq_none.mpr fun u hu hbu =>
      hnm u hu ((variantMatches_iff _ _).mp hbu)
  simp [hfind]

/-- Claim C1 amended: of the three endpoints the spec describes, only the
synchronization endpoint exists; on it, a request whose options match no
variant of the resolved product throws a message that the handler substring
rule does not match (the message does not contain the text not found unless
the handle itself does), so the request is routed to the generic 500 branch,
not to 404. -/
theorem c1_no_match_is_500 (w : World) (h : String)
    (selectedOptions : List ProductOption)
    (hne : h ≠ "")
    (hmsg : strContains (noMatchMsg h) "not found" = false)
    (hnm : ∀ v ∈ (w.products h).getD [], ¬ MatchesSpec selectedOptions v) :
    (syncVariantStock w (some h) (BodyValue.arr selectedOptions)).1 =
        SyncOutcome.serverError "Server error during stock synchronization."
          (noMatchMsg h)
    ∧ statusOf (syncVariantStock w (some h) (BodyValue.arr selectedOptions)).1 = 500 := by
  have hb : (h == "") = false := by
    simp [hne]
  have hres := resolution_fails_of_no_match hnm
  have hstep : syncVariantStock w (some h) (BodyValue.arr selectedOptions) =
      (catchOutcome (noMatchMsg h), w) := by
    simp [syncVariantStock, hb, hres]
  rw [hstep]
  unfold catchOutcome
  rw [hmsg]
  exact ⟨rfl, rfl⟩

/-- The single variant of the concrete world used for claim C1: a shirt in
size M only. -/
def variantC1 : Variant := ⟨"gid-shirt-m", [⟨"Size", "M"⟩]⟩

/-- Concrete remote state for claim C1: one product, handle shirt, with one
variant in size M. -/
def worldC1 : World :=
  { products := fun h => if h == "shirt" then some [variantC1] else none
    inventory := fun _ => none
    mutationUserErrors := fun _ _ => none
    storeStock := fun _ => none }

theorem c1_counterexample :
    (syncVariantStock worldC1 (some "shirt")
        (BodyValue.arr [⟨"Size", "XXL"⟩])).1 =
      SyncOutcome.serverError "Server error during stock synchronization."
        (noMatchMsg "shirt")
    ∧ statusOf (syncVariantStock worldC1 (some "shirt")
        (BodyValue.arr [⟨"Size", "XXL"⟩])).1 = 500 :=
  ⟨rfl, rfl⟩

theorem c1_witness :
    statusOf (syncVariantStock worldC1 (some "shirt-b")
        (BodyValue.arr [⟨"Size", "XXL"⟩])).1 = 500 :=
  (c1_no_match_is_500 worldC1 "shirt-b" [⟨"Size", "XXL"⟩]
    (by decide) (by decide) (by decide)).2

theorem c2_counterexample :
    (HttpMethod.post, "/decrease-variant-stock") ∉ registeredRoutes := by
  decide

/-- Claim C2 amended: the decrement endpoint does not exist; the source
removed it (comment at src/server.js lines 300-301), and the only registered
routes are POST /sync-variant-stock and GET /, so no route of the app is the
decrement endpoint and no decrement semantics are implemented. -/
theorem c2_no_decrement_route (r : HttpMethod × String)
    (hr : r ∈ registeredRoutes) : r.2 ≠ "/decrease-variant-stock" := by
  simp only [registeredRoutes, List.mem_cons, List.not_mem_nil, or_false] at hr
  rcases hr with rfl | rfl <;> decide

theorem c2_witness :
    ((HttpMethod.post, "/sync-variant-stock") : HttpMethod × String).2 ≠
      "/decrease-variant-stock" :=
  c2_no_decrement_route (HttpMethod.post, "/sync-variant-stock") (by decide)

lemma sync_success_eq (w : World) (h : String) (opts : List ProductOption)
    (gidT gidS : String) (stock : Int)
    (hb : (h == "") = false)
    (hT : getVariantGidByOptions h opts (w.products h) = Except.ok gidT)
    (hS : getVariantGidByOptions (h ++ "-store") opts
        (w.products (h ++ "-store")) = Except.ok gidS)
    (hI : getVariantInventoryLevel gidS (w.inventory gidS) = Except.ok stock)
    (hM : setVariantCustomStock gidT stock
        (w.mutationUserErrors gidT (toString stock)) = Except.ok ⟨stock⟩) :
    syncVariantStock w (some h) (BodyValue.arr opts) =
      (SyncOutcome.ok ⟨syncSuccessMsg, h, h ++ "-store", opts, gidT, stock⟩,
       applyMetafieldWrite w gidT stock) := by
  simp [syncVariantStock, hb, hT, hS, hI, hM]

lemma sync_ok_inv (w : World) (h : Option String) (b : BodyValue)
    (r : SyncResponse)
    (h1 : (syncVariantStock w h b).1 = SyncOutcome.ok r) :
    ∃ hh opts gidT gidS stock,
      h = some hh ∧ b = BodyValue.arr opts ∧ (hh == "") = false ∧
      getVariantGidByOptions hh opts (w.products hh) = Except.ok gidT ∧
      getVariantGidByOptions (hh ++ "-store") opts
        (w.products (hh ++ "-store")) = Except.ok gidS ∧
      getVariantInventoryLevel gidS (w.inventory gidS) = Except.ok stock ∧
      setVariantCustomStock gidT stock
        (w.mutationUserErrors gidT (toString stock)) = Except.ok ⟨stock⟩ ∧
      r = ⟨syncSuccessMsg, hh, hh ++ "-store", opts, gidT, stock⟩ ∧
      (syncVariantStock w h b).2 = applyMetafieldWrite w gidT stock := by
  cases h with
  | none => simp [syncVariantStock] at h1
  | some hh =>
    cases b with
    | absent => simp [syncVariantStock] at h1
    | nonArray => simp [syncVariantStock] at h1
    | arr opts =>
      cases hb : (hh == "") with
      | true => simp [syncVariantStock, hb] at h1
      | false =>
        cases hT : getVariantGidByOptions hh opts (w.products hh) with
        | error e =>
          have : (syncVariantStock w (some hh) (BodyValue.arr opts)).1 =
              catchOutcome e := by
            simp [syncVariantStock, hb, hT]
          rw [this] at h1
          exact absurd h1 (catchOutcome_ne_ok e r)
        | ok gidT =>
          cases hS : getVariantGidByOptions (hh ++ "-store") opts
              (w.products (hh ++ "-store")) with
          | error e =>
            have : (syncVariantStock w (some hh) (BodyValue.arr opts)).1 =
                catchOutcome e := by
              simp [syncVariantStock, hb, hT, hS]
            rw [this] at h1
            exact absurd h1 (catchOutcome_ne_ok e r)
          | ok gidS =>
            cases hI : getVariantInventoryLevel gidS (w.inventory gidS) with
            | error e =>
              have : (syncVariantStock w (some hh) (BodyValue.arr opts)).1 =
                  catchOutcome e := by
                simp [syncVariantStock, hb, hT, hS, hI]
              rw [this] at h1
              exact absurd h1 (catchOutcome_ne_ok e r)
            | ok stock =>
              cases hM : setVariantCustomStock gidT stock
                  (w.mutationUserErrors gidT (toString stock)) with
              | error e =>
                have : (syncVariantStock w (some hh) (BodyValue.arr opts)).1 =
                    catchOutcome e := by
                  simp [syncVariantStock, hb, hT, hS, hI, hM]
                rw [this] at h1
                exact absurd h1 (catchOutcome_ne_ok e r)
              | ok upd =>
                have hupd := setVariantCustomStock_ok hM
                rw [hupd] at hM
                have heq := sync_success_eq w hh opts gidT gidS stock hb hT hS hI hM
                refine ⟨hh, opts, gidT, gidS, stock, rfl, rfl, hb, hT, hS, hI,
                  hM, ?_, ?_⟩
                · rw [heq] at h1
                  exact (SyncOutcome.ok.inj h1).symm
                · rw [heq]

/-- Claim C4: the synchronization endpoint resolves the target on handle and
the source on handle ++ "-store", reads the aggregate source inventory, and
writes exactly that value onto the target metafield regardless of the
target's prior value; the response carries both handles, the target id, the
options, and the new stock value; metafields of other owners are untouched. -/
theorem c4_sync_overwrites (w : World) (h : String)
    (selectedOptions : List ProductOption)
    (gidT gidS : String) (stock : Int)
    (hne : h ≠ "")
    (hT : getVariantGidByOptions h selectedOptions (w.products h) = Except.ok gidT)
    (hS : getVariantGidByOptions (h ++ "-store") selectedOptions
        (w.products (h ++ "-store")) = Except.ok gidS)
    (hI : getVariantInventoryLevel gidS (w.inventory gidS) = Except.ok stock)
    (hM : w.mutationUserErrors gidT (toString stock) = some []
        ∨ w.mutationUserErrors gidT (toString stock) = none) :
    (syncVariantStock w (some h) (BodyValue.arr selectedOptions)).1 =
        SyncOutcome.ok ⟨syncSuccessMsg, h, h ++ "-store", selectedOptions, gidT, stock⟩
    ∧ (syncVariantStock w (some h) (BodyValue.arr selectedOptions)).2.storeStock gidT =
        some (toString stock)
    ∧ ∀ g, g ≠ gidT →
        (syncVariantStock w (some h) (BodyValue.arr selectedOptions)).2.storeStock g =
          w.storeStock g := by
  have hb : (h == "") = false := by simp [hne]
  have hM' : setVariantCustomStock gidT stock
      (w.mutationUserErrors gidT (toString stock)) = Except.ok ⟨stock⟩ := by
    rcases hM with hM | hM <;> simp [setVariantCustomStock, hM]
  have heq := sync_success_eq w h selectedOptions gidT gidS stock hb hT hS hI hM'
  rw [heq]
  refine ⟨rfl, ?_, ?_⟩
  · simp [applyMetafieldWrite]
  · intro g hg
    simp [applyMetafieldWrite, hg]

/-- The target variant of the concrete world for claim C4. -/
def variantC4t : Variant := ⟨"gid-c4-target", [⟨"Size", "M"⟩]⟩

/-- The source variant of the concrete world for claim C4. -/
def variantC4s : Variant := ⟨"gid-c4-source", [⟨"Size", "M"⟩]⟩

/-- Concrete remote state for claim C4: the source variant has no inventory
level records, and the target already holds stock 7, which the sync must
overwrite with 0. -/
def worldC4 : World :=
  { products := fun h =>
      if h == "cap" then some [variantC4t]
      else if h == "cap-store" then some [variantC4s]
      else none
    inventory := fun g => if g == "gid-c4-source" then some (some []) else none
    mutationUserErrors := fun _ _ => none
    storeStock := fun _ => some "7" }

theorem c4_witness :
    (syncVariantStock worldC4 (some "cap") (BodyValue.arr [⟨"Size", "M"⟩])).1 =
        SyncOutcome.ok ⟨syncSuccessMsg, "cap", "cap" ++ "-store",
          [⟨"Size", "M"⟩], "gid-c4-target", 0⟩
    ∧ (syncVariantStock worldC4 (some "cap")
        (BodyValue.arr [⟨"Size", "M"⟩])).2.storeStock "gid-c4-target" =
        some (toString (0 : Int))
    ∧ worldC4.storeStock "gid-c4-target" = some "7" := by
  have hc := c4_sync_overwrites worldC4 "cap" [⟨"Size", "M"⟩]
    "gid-c4-target" "gid-c4-source" 0 (by decide) rfl rfl rfl (Or.inr rfl)
  exact ⟨hc.1, hc.2.1, rfl⟩

/-- Claim C8: synchronization is idempotent; a second call on the world left
by a successful first call, with the same handle and options and hence the
same unchanged source inventory, reaches the same outcome and reports and
writes the same target stock value, leaving the world as the first call left
it. -/
theorem c8_sync_idempotent (w : World) (h : Option String) (b : BodyValue)
    (r : SyncResponse)
    (h1 : (syncVariantStock w h b).1 = SyncOutcome.ok r) :
    syncVariantStock ((syncVariantStock w h b).2) h b =
      (SyncOutcome.ok r, (syncVariantStock w h b).2) := by
  obtain ⟨hh, opts, gidT, gidS, stock, rfl, rfl, hb, hT, hS, hI, hM, hr, hw2⟩ :=
    sync_ok_inv w h b r h1
  rw [hw2]
  have hprod : (applyMetafieldWrite w gidT stock).products = w.products := rfl
  have hinv : (applyMetafieldWrite w gidT stock).inventory = w.inventory := rfl
  have hmu : (applyMetafieldWrite w gidT stock).mutationUserErrors =
      w.mutationUserErrors := rfl
  have h2 := sync_success_eq (applyMetafieldWrite w gidT stock) hh opts gidT gidS
    stock hb (by rw [hprod]; exact hT) (by rw [hprod]; exact hS)
    (by rw [hinv]; exact hI) (by rw [hmu]; exact hM)
  rw [h2, hr]
  have hwrite : applyMetafieldWrite (applyMetafieldWrite w gidT stock) gidT stock =
      applyMetafieldWrite w gidT stock := by
    cases w with
    | mk p i m s =>
      unfold applyMetafieldWrite
      simp only []
      congr 1
      funext g
      by_cases hg : g = gidT
      · simp [hg]
      · simp [hg]
  rw [hwrite]

/-- The target variant of the concrete world for claim C8. -/
def variantC8t : Variant := ⟨"gid-c8-target", [⟨"Size", "M"⟩]⟩

/-- The source variant of the concrete world for claim C8. -/
def variantC8s : Variant := ⟨"gid-c8-source", [⟨"Size", "M"⟩]⟩

/-- Concrete remote state for claim C8: the source variant has available
inventory 14 across two locations (9 and 5). -/
def worldC8 : World :=
  { products := fun h =>
      if h == "mug" then some [variantC8t]
      else if h == "mug-store" then some [variantC8s]
      else none
    inventory := fun g =>
      if g == "gid-c8-source" then
        some (some [⟨[⟨9, "available"⟩]⟩, ⟨[⟨5, "available"⟩]⟩])
      else none
    mutationUserErrors := fun _ _ => none
    storeStock := fun _ => none }

theorem c8_witness :
    syncVariantStock
        ((syncVariantStock worldC8 (some "mug") (BodyValue.arr [⟨"Size", "M"⟩])).2)
        (some "mug") (BodyValue.arr [⟨"Size", "M"⟩]) =
      (SyncOutcome.ok ⟨syncSuccessMsg, "mug", "mug" ++ "-store",
          [⟨"Size", "M"⟩], "gid-c8-target", 14⟩,
       (syncVariantStock worldC8 (some "mug") (BodyValue.arr [⟨"Size", "M"⟩])).2) :=
  c8_sync_idempotent worldC8 (some "mug") (BodyValue.arr [⟨"Size", "M"⟩])
    ⟨syncSuccessMsg, "mug", "mug" ++ "-store", [⟨"Size", "M"⟩], "gid-c8-target", 14⟩
    rfl

/-- The target variant of the concrete world refuting claim C9. -/
def variantC9t : Variant := ⟨"gid-c9-target", [⟨"Size", "M"⟩]⟩

/-- The source variant of the concrete world refuting claim C9. -/
def variantC9s : Variant := ⟨"gid-c9-source", [⟨"Size", "M"⟩]⟩

/-- Concrete remote state refuting claim C9 as stated: both products resolve
on the storefront, but the admin API does not know the source variant, so
the inventory read throws its not-found message and the handler answers
404 even though validation passed and the product had a variant. -/
def worldC9 : World :=
  { products := fun h =>
      if h == "hat" then some [variantC9t]
      else if h == "hat-store" then some [variantC9s]
      else none
    inventory := fun _ => none
    mutationUserErrors := fun _ _ => none
    storeStock := fun _ => none }

theorem c9_counterexample :
    worldC9.products "hat" = some [variantC9t]
    ∧ (syncVariantStock worldC9 (some "hat") (BodyValue.arr [])).1 =
        SyncOutcome.notFound (notFoundMsg "gid-c9-source")
    ∧ statusOf (syncVariantStock worldC9 (some "hat") (BodyValue.arr [])).1 = 404 :=
  ⟨rfl, rfl, rfl⟩

/-- Claim C9 amended: a request with an empty selectedOptions list and a
resolved product with at least one variant passes validation (only presence
and array-ness are checked) and resolution vacuously matches every variant,
so the first variant returned by the API is used and the request is never
rejected with 400; it is also not rejected with 404 provided the later
pipeline stages succeed (source product resolves, the admin API knows the
source variant, and the metafield write reports no user errors), a 404 from
the admin inventory lookup remaining possible. -/
theorem c9_empty_options (w : World) (h : String) (v : Variant)
    (vs : List Variant)
    (hne : h ≠ "") (hp : w.products h = some (v :: vs)) :
    ((∀ e, (syncVariantStock w (some h) (BodyValue.arr [])).1 ≠
        SyncOutcome.badRequest e)
      ∧ getVariantGidByOptions h [] (w.products h) = Except.ok v.id)
    ∧ (∀ u us inv, w.products (h ++ "-store") = some (u :: us) →
        w.inventory u.id = some inv →
        (∀ g q, w.mutationUserErrors g q = none) →
        ∃ resp, (syncVariantStock w (some h) (BodyValue.arr [])).1 =
          SyncOutcome.ok resp) := by
  have hb : (h == "") = false := by simp [hne]
  have hres : getVariantGidByOptions h [] (w.products h) = Except.ok v.id := by
    unfold getVariantGidByOptions
    rw [hp]
    simp [List.find?_cons, variantMatches]
  constructor
  · refine ⟨?_, hres⟩
    intro e
    cases hS : getVariantGidByOptions (h ++ "-store") []
        (w.products (h ++ "-store")) with
    | error eS =>
      have : (syncVariantStock w (some h) (BodyValue.arr [])).1 =
          catchOutcome eS := by
        simp [syncVariantStock, hb, hres, hS]
      rw [this]
      exact catchOutcome_ne_badRequest eS e
    | ok gidS =>
      cases hI : getVariantInventoryLevel gidS (w.inventory gidS) with
      | error eI =>
        have : (syncVariantStock w (some h) (BodyValue.arr [])).1 =
            catchOutcome eI := by
          simp [syncVariantStock, hb, hres, hS, hI]
        rw [this]
        exact catchOutcome_ne_badRequest eI e
      | ok stock =>
        cases hM : setVariantCustomStock v.id stock
            (w.mutationUserErrors v.id (toString stock)) with
        | error eM =>
          have : (syncVariantStock w (some h) (BodyValue.arr [])).1 =
              catchOutcome eM := by
            simp [syncVariantStock, hb, hres, hS, hI, hM]
          rw [this]
          exact catchOutcome_ne_badRequest eM e
        | ok upd =>
          have hupd := setVariantCustomStock_ok hM
          rw [hupd] at hM
          have heq := sync_success_eq w h [] v.id gidS stock hb hres hS hI hM
          rw [congrArg Prod.fst heq]
          simp
  · intro u us inv hpS hinv hmu
    have hresS : getVariantGidByOptions (h ++ "-store") []
        (w.products (h ++ "-store")) = Except.ok u.id := by
      unfold getVariantGidByOptions
      rw [hpS]
      simp [List.find?_cons, variantMatches]
    have hI : getVariantInventoryLevel u.id (w.inventory u.id) =
        Except.ok (((inv.getD []).map availContribution).sum) := by
      rw [hinv]
      exact getVariantInventoryLevel_some u.id inv
    have hM : setVariantCustomStock v.id (((inv.getD []).map availContribution).sum)
        (w.mutationUserErrors v.id (toString (((inv.getD []).map availContribution).sum))) =
        Except.ok ⟨((inv.getD []).map availContribution).sum⟩ := by
      rw [hmu]
      rfl
    have heq := sync_success_eq w h [] v.id u.id
      (((inv.getD []).map availContribution).sum) hb hres hresS hI hM
    exact ⟨_, congrArg Prod.fst heq⟩

/-- The target variant of the concrete success world for claim C9. -/
def variantC9wt : Variant := ⟨"gid-c9w-target", [⟨"Size", "M"⟩]⟩

/-- The source variant of the concrete success world for claim C9. -/
def variantC9ws : Variant := ⟨"gid-c9w-source", [⟨"Size", "M"⟩]⟩

/-- Concrete remote state for the claim C9 witness: all pipeline stages
succeed, with source inventory 5. -/
def worldC9w : World :=
  { products := fun h =>
      if h == "tee" then some [variantC9wt]
      else if h == "tee-store" then some [variantC9ws]
      else none
    inventory := fun g =>
      if g == "gid-c9w-source" then some (some [⟨[⟨5, "available"⟩]⟩])
      else none
    mutationUserErrors := fun _ _ => none
    storeStock := fun _ => none }

theorem c9_witness :
    getVariantGidByOptions "tee" [] (worldC9w.products "tee") =
        Except.ok variantC9wt.id
    ∧ ∃ resp, (syncVariantStock worldC9w (some "tee") (BodyValue.arr [])).1 =
        SyncOutcome.ok resp := by
  have hc := c9_empty_options worldC9w "tee" variantC9wt [] (by decide) rfl
  exact ⟨hc.1.2, hc.2 variantC9ws [] (some [⟨[⟨5, "available"⟩]⟩]) rfl rfl
    (fun g q => rfl)⟩

/-- Claim C10: on the sync endpoint, any failure leaves the remote state of
this request untouched; in particular when target resolution, source
resolution, or the inventory read fails, no metafield write is issued and
the custom stock field of every variant is unchanged. -/
theorem c10_no_write_on_failure (w : World) (h : Option String) (b : BodyValue)
    (hfail : ∀ r, (syncVariantStock w h b).1 ≠ SyncOutcome.ok r) :
    (syncVariantStock w h b).2 = w := by
  cases h with
  | none => rfl
  | some hh =>
    cases b with
    | absent => rfl
    | nonArray => rfl
    | arr opts =>
      cases hb : (hh == "") with
      | true => simp [syncVariantStock, hb]
      | false =>
        cases hT : getVariantGidByOptions hh opts (w.products hh) with
        | error e => simp [syncVariantStock, hb, hT]
        | ok gidT =>
          cases hS : getVariantGidByOptions (hh ++ "-store") opts
              (w.products (hh ++ "-store")) with
          | error e => simp [syncVariantStock, hb, hT, hS]
          | ok gidS =>
            cases hI : getVariantInventoryLevel gidS (w.inventory gidS) with
            | error e => simp [syncVariantStock, hb, hT, hS, hI]
            | ok stock =>
              cases hM : setVariantCustomStock gidT stock
                  (w.mutationUserErrors gidT (toString stock)) with
              | error e => simp [syncVariantStock, hb, hT, hS, hI, hM]
              | ok upd =>
                have hupd := setVariantCustomStock_ok hM
                rw [hupd] at hM
                have heq := sync_success_eq w hh opts gidT gidS stock hb hT hS hI hM
                exact absurd (congrArg Prod.fst heq) (hfail _)

/-- Concrete remote state for the claim C10 witness: the storefront knows no
product at all, so target resolution fails and the handler answers 500 with
the world untouched. -/
def worldC10 : World :=
  { products := fun _ => none
    inventory := fun _ => none
    mutationUserErrors := fun _ _ => none
    storeStock := fun _ => some "3" }

theorem c10_witness :
    (syncVariantStock worldC10 (some "pin") (BodyValue.arr [])).2 = worldC10 := by
  apply c10_no_write_on_failure
  intro r hr
  have hout : (syncVariantStock worldC10 (some "pin") (BodyValue.arr [])).1 =
      SyncOutcome.serverError "Server error during stock synchronization."
        (noMatchMsg "pin") := rfl
  rw [hout] at hr
  exact SyncOutcome.noConfusion hr

end UpdateStock
